import Mathlib

/-!
Verification of the CShare Availability & Reservation Engine.

This file is a shallow embedding, in Lean 4, of the booking subsystem of the
CShare peer-to-peer rental marketplace client:

* the pure validators of `src/utils/validators.js`
  (`buildLockIds`, `validateAvailability`, `validateBookingDates`);
* the booking submission flow `submitBookingRequest` of the booking manager
  module, including its inline availability gate, conflict check and the
  atomic batch write against the `bookings` / `bookingLocks` collections;
* the lifecycle action `handleBookingAction` and the dashboard grouping
  folds of `loadMyBookings` / `loadOwnerBookings`.

Calendar dates are embedded as natural day numbers (days since 1970-01-01,
UTC; the embedding identifies local time with UTC, i.e. a zero timezone
offset, so the midnight-normalisation steps of the source are identities).
The Firestore document store is embedded as association lists keyed by
document id, with `set` = create-or-overwrite and batched writes applied
atomically. Timestamps, server timestamps and the auto-generated booking id
are supplied as environment parameters.
-/

/-! ### Decimal rendering of natural numbers (digits of `Number.toString`) -/

/-- Character for a single decimal digit `n < 10`. -/
def digitChar (n : Nat) : Char := Char.ofNat (48 + n)

/-- Fuel-driven most-significant-first decimal digits of `n`. -/
def natDigitsGo : Nat → Nat → List Char
  | 0, _ => []
  | fuel + 1, n =>
      if n < 10 then [digitChar n]
      else natDigitsGo fuel (n / 10) ++ [digitChar (n % 10)]

/-- Decimal rendering of a natural number, as produced by JS string
interpolation of a nonnegative integer. -/
def natToString (n : Nat) : String := String.mk (natDigitsGo (n + 1) n)

/-- Two-digit zero padding, as in the `MM` / `DD` fields of
`Date.prototype.toISOString`. -/
def pad2 (n : Nat) : String :=
  if n < 10 then "0" ++ natToString n else natToString n

/-- Four-digit zero padding, as in the `YYYY` field of
`Date.prototype.toISOString`. -/
def pad4 (n : Nat) : String :=
  if n < 10 then "000" ++ natToString n
  else if n < 100 then "00" ++ natToString n
  else if n < 1000 then "0" ++ natToString n
  else natToString n

/-! ### Civil-date arithmetic (the proleptic Gregorian calendar of JS `Date`) -/

/-- Convert a day number (days since 1970-01-01) to a civil
`(year, month, day)` triple of the proleptic Gregorian calendar, the
calendar used by JS `Date` in UTC. Standard era/day-of-era arithmetic. -/
def civilFromDays (z : Nat) : Nat × Nat × Nat :=
  let z' := z + 719468
  let era := z' / 146097
  let doe := z' % 146097
  let yoe := (doe - doe / 1460 + doe / 36524 - doe / 146096) / 365
  let y := yoe + era * 400
  let doy := doe - (365 * yoe + yoe / 4 - yoe / 100)
  let mp := (5 * doy + 2) / 153
  let d := doy - (153 * mp + 2) / 5 + 1
  let m := if mp < 10 then mp + 3 else mp - 9
  (if m ≤ 2 then y + 1 else y, m, d)

/-- The `YYYY-MM-DD` date part of `Date.prototype.toISOString`, i.e.
`date.toISOString().split('T')[0]`, for the date at day number `z`. -/
def isoDate (z : Nat) : String :=
  let c := civilFromDays z
  pad4 c.1 ++ "-" ++ pad2 c.2.1 ++ "-" ++ pad2 c.2.2

/-- JS `Date.prototype.getDay`: weekday with Sunday = 0. Day number 0
(1970-01-01) was a Thursday, weekday 4. -/
def jsGetDay (z : Nat) : Nat := (z + 4) % 7

/-- Embedding of JS `Date.prototype.toLocaleDateString` for the date at day
number `z`. The source output is host-locale dependent; the embedding fixes
the en-US `M/D/YYYY` form. Nothing below depends on the concrete shape. -/
def toLocaleDateString (z : Nat) : String :=
  let c := civilFromDays z
  natToString c.2.1 ++ "/" ++ natToString c.2.2 ++ "/" ++ natToString c.1

/-- The JS weekday-name table used by the validation messages. -/
def dayNames : List String :=
  ["Sunday", "Monday", "Tuesday", "Wednesday", "Thursday", "Friday", "Saturday"]

/-! ### JS `String.prototype.split` on a one-character separator -/

/-- Split a character list at every occurrence of `c`
(JS `String.prototype.split` with a one-character separator). -/
def splitChar (c : Char) : List Char → List (List Char)
  | [] => [[]]
  | a :: rest =>
      match splitChar c rest with
      | [] => [[]]
      | g :: gs => if a = c then [] :: g :: gs else (a :: g) :: gs

/-- String-level wrapper for `splitChar`. -/
def jsSplit (s : String) (c : Char) : List String :=
  (splitChar c s.data).map String.mk

/-! ### Document store -/

/-- Does a document with id `k` exist in collection `docs`
(Firestore `snap.exists()` on a `getDoc`)? -/
def docExists {α : Type} (docs : List (String × α)) (k : String) : Bool :=
  docs.any (fun p => p.1 == k)

/-- Look up the document with id `k` (Firestore `getDoc(...).data()`). -/
def findDoc {α : Type} (docs : List (String × α)) (k : String) : Option α :=
  (docs.find? (fun p => p.1 == k)).map (·.2)

/-- Firestore `set`: create the document at id `k`, overwriting any
existing document with that id. -/
def setDoc {α : Type} (docs : List (String × α)) (k : String) (v : α) :
    List (String × α) :=
  docs.filter (fun p => ¬ p.1 = k) ++ [(k, v)]

/-! ### Data model (§6 persisted shapes) -/

/-- One `statusHistory` entry `{status, at, by}` of a Booking document.
The source field names `at` and `by` are Lean keywords and are embedded as
`atTime` and `byUid`. -/
structure StatusEntry where
  status : String
  atTime : Nat
  byUid : String
  deriving Repr, DecidableEq

/-- A `bookings/{bookingId}` document. -/
structure Booking where
  itemId : String
  itemName : String
  renterId : String
  renterName : String
  renterEmail : String
  ownerId : String
  ownerName : String
  ownerEmail : String
  startDate : Nat
  endDate : Nat
  status : String
  statusHistory : List StatusEntry
  lockIds : List String
  createdAt : Nat
  updatedAt : Nat
  deriving Repr, DecidableEq

/-- A `bookingLocks/{itemId_ISODate}` document. -/
structure LockRecord where
  bookingId : String
  itemId : String
  date : String
  ownerId : String
  createdAt : Nat
  deriving Repr, DecidableEq

/-- The `availability` object stored on an item. `type` is a free-form
string tag (`"always"`, `"dateRange"`, `"recurring"`, or anything else);
absent JS fields are `none`. Availability bounds are day numbers (the
`Timestamp.toDate()` values date-normalised, which the day-number embedding
makes exact). -/
structure AvailabilityObj where
  type : Option String
  startDate : Option Nat
  endDate : Option Nat
  daysOfWeek : Option (List Nat)
  deriving Repr, DecidableEq

/-- The slice of an `items/{itemId}` document consumed by the booking flow.
`availability := none` embeds an item without an `availability` field. -/
structure Item where
  name : String
  ownerId : String
  ownerName : String
  ownerEmail : String
  availability : Option AvailabilityObj
  deriving Repr, DecidableEq

/-- The authenticated user (`store.getCurrentUser()`). -/
structure User where
  uid : String
  displayName : Option String
  email : String
  deriving Repr, DecidableEq

/-- The document store state: the `bookings` and `bookingLocks`
collections, each an association list keyed by document id. -/
structure Store where
  bookings : List (String × Booking)
  bookingLocks : List (String × LockRecord)
  deriving Repr, DecidableEq

/-! ### Validators (`src/utils/validators.js`) -/

/-- The single booking-lock key for `itemId` on day `z`:
`` `${itemId}_${cursor.toISOString().split('T')[0]}` ``. -/
def lockKey (itemId : String) (z : Nat) : String :=
  itemId ++ "_" ++ isoDate z

/-- Loop body of `buildLockIds`: the `while (cursor <= end)` loop, driven
by fuel that bounds the number of iterations. -/
def buildLockIdsGo (itemId : String) : Nat → Nat → Nat → List String
  | 0, _, _ => []
  | fuel + 1, cursor, endDate =>
      if cursor ≤ endDate then
        lockKey itemId cursor :: buildLockIdsGo itemId fuel (cursor + 1) endDate
      else []

/-- `buildLockIds(itemId, startDate, endDate)`: one key per calendar day
from `startDate` to `endDate` inclusive (empty when `endDate < startDate`).
`endDate + 1 - startDate` iterations suffice for the source's while loop. -/
def buildLockIds (itemId : String) (startDate endDate : Nat) : List String :=
  buildLockIdsGo itemId (endDate + 1 - startDate) startDate endDate

/-- A `{ valid, message }` validation result; `message := none` embeds the
source's results that carry no `message` field. -/
structure ValidationResult where
  valid : Bool
  message : Option String
  deriving Repr, DecidableEq

/-- `validateAvailability(item, requestedStart, requestedEnd)` from
`src/utils/validators.js`, with dates as day numbers. -/
def validateAvailability (item : Item) (requestedStart requestedEnd : Nat) :
    ValidationResult :=
  let availability := item.availability.getD ⟨none, none, none, none⟩
  if availability.type = some "always" then
    ⟨true, none⟩
  else if availability.type = some "dateRange" then
    match availability.startDate with
    | some availStart =>
        if requestedStart < availStart then
          ⟨false, some ("Item is only available from " ++
            toLocaleDateString availStart)⟩
        else
          match availability.endDate with
          | some availEnd =>
              if availEnd < requestedEnd then
                ⟨false, some ("Item is only available until " ++
                  toLocaleDateString availEnd)⟩
              else ⟨true, none⟩
          | none => ⟨true, none⟩
    | none =>
        match availability.endDate with
        | some availEnd =>
            if availEnd < requestedEnd then
              ⟨false, some ("Item is only available until " ++
                toLocaleDateString availEnd)⟩
            else ⟨true, none⟩
        | none => ⟨true, none⟩
  else if availability.type = some "recurring" then
    if requestedStart ≠ requestedEnd then
      ⟨false, some "Recurring availability items can only be booked for same-day use"⟩
    else
      let dayOfWeek := jsGetDay requestedStart
      let availableDays := availability.daysOfWeek.getD []
      if ¬ availableDays.contains dayOfWeek then
        ⟨false, some ("Item is only available on: " ++
          String.intercalate ", "
            (availableDays.map (fun d => dayNames.getD d "undefined")))⟩
      else ⟨true, none⟩
  else ⟨false, some "Unknown availability type"⟩

/-- `validateBookingDates(startDate, endDate)`; `today` is the current date
normalised to midnight, passed explicitly. -/
def validateBookingDates (today startDate endDate : Nat) : ValidationResult :=
  if startDate < today then
    ⟨false, some "Start date cannot be in the past"⟩
  else if endDate < startDate then
    ⟨false, some "End date must be after start date"⟩
  else ⟨true, none⟩

/-! ### Booking submission (`submitBookingRequest`, booking manager module) -/

/-- Environment inputs of one `submitBookingRequest` call: today's date
(midnight-normalised), `Timestamp.now()`, the server timestamp assigned at
commit, the auto-generated id of the new `bookings` document, and whether
the atomic `batch.commit()` succeeds. -/
structure SubmitEnv where
  today : Nat
  now : Nat
  srvNow : Nat
  newBookingId : String
  commitSucceeds : Bool
  deriving Repr, DecidableEq

/-- The inline availability gate of `submitBookingRequest` (the
`if (item.availability) { ... }` block): `some msg` is a rejection alert,
`none` lets the request continue. An absent availability field, the
`"always"` type and any unrecognised type all fall through without any
check. -/
def availabilityCheck (item : Item) (startDate endDate : Nat) : Option String :=
  match item.availability with
  | none => none
  | some availability =>
      if availability.type = some "dateRange" then
        match availability.startDate with
        | some itemStartDate =>
            if startDate < itemStartDate then
              some ("Item is only available from " ++
                toLocaleDateString itemStartDate)
            else
              match availability.endDate with
              | some itemEndDate =>
                  if itemEndDate < endDate then
                    some ("Item is only available until " ++
                      toLocaleDateString itemEndDate)
                  else none
              | none => none
        | none =>
            match availability.endDate with
            | some itemEndDate =>
                if itemEndDate < endDate then
                  some ("Item is only available until " ++
                    toLocaleDateString itemEndDate)
                else none
            | none => none
      else if availability.type = some "recurring" then
        let availableDays := availability.daysOfWeek.getD []
        let availableDayNames :=
          String.intercalate ", "
            (availableDays.map (fun d => dayNames.getD d "undefined"))
        if startDate ≠ endDate then
          some ("This item only allows same-day borrowing on: " ++
            availableDayNames ++
            ". Please select the same date for pickup and return.")
        else
          let dayOfWeek := jsGetDay startDate
          if ¬ availableDays.contains dayOfWeek then
            some ("This item is only available on: " ++ availableDayNames ++
              ". You selected: " ++ dayNames.getD dayOfWeek "undefined")
          else none
      else none

/-- JS `currentUser.displayName || currentUser.email.split('@')[0]`
(an empty display name is falsy and also falls back to the email stem). -/
def jsDisplayName (user : User) : String :=
  match user.displayName with
  | some n => if n = "" then (jsSplit user.email '@').getD 0 "" else n
  | none => (jsSplit user.email '@').getD 0 ""

/-- The `bookings` document staged by `batch.set(bookingRef, {...})`. -/
def mkBooking (env : SubmitEnv) (user : User) (itemId : String) (item : Item)
    (startDate endDate : Nat) (lockIds : List String) : Booking where
  itemId := itemId
  itemName := item.name
  renterId := user.uid
  renterName := jsDisplayName user
  renterEmail := user.email
  ownerId := item.ownerId
  ownerName := item.ownerName
  ownerEmail := item.ownerEmail
  startDate := startDate
  endDate := endDate
  status := "pending"
  statusHistory := [⟨"pending", env.now, user.uid⟩]
  lockIds := lockIds
  createdAt := env.srvNow
  updatedAt := env.srvNow

/-- The `bookingLocks` document staged for lock id `id`: note the `date`
field is `id.split('_')[1]`. -/
def mkLock (env : SubmitEnv) (itemId : String) (item : Item) (id : String) :
    LockRecord where
  bookingId := env.newBookingId
  itemId := itemId
  date := (jsSplit id '_').getD 1 ""
  ownerId := item.ownerId
  createdAt := env.srvNow

/-- Apply the staged per-day lock writes of the batch to the
`bookingLocks` collection. -/
def writeLocks (locks : List (String × LockRecord)) (mk : String → LockRecord)
    (ids : List String) : List (String × LockRecord) :=
  ids.foldl (fun d id => setDoc d id (mk id)) locks

/-- Outcome of the synchronous part of a submit call (validations, inline
availability gate, and the conflict-check reads): either a rejection alert,
or permission to stage the batch for the given lock ids. -/
inductive PhaseAOut where
  | reject (message : String)
  | proceed (lockIds : List String)
  deriving Repr, DecidableEq

/-- Result of a completed submit call: a rejection alert, a generic failure
from the catch block around the batch commit, or the created booking. -/
inductive SubmitResult where
  | rejected (message : String)
  | failed
  | created (bookingId : String) (booking : Booking)
  deriving Repr, DecidableEq

/-- Check-and-read phase of `submitBookingRequest`: the self-booking guard,
`validateBookingDates`, the inline availability gate, `buildLockIds`, and
the parallel `getDoc` existence reads over `bookingLocks`. Everything here
runs against one snapshot `st` of the store, up to the last suspension
point before the atomic write. -/
def phaseA (env : SubmitEnv) (user : User) (itemId : String) (item : Item)
    (startDate endDate : Nat) (st : Store) : PhaseAOut :=
  if item.ownerId = user.uid then
    .reject "You cannot book your own item."
  else
    let dateValidation := validateBookingDates env.today startDate endDate
    if ¬ dateValidation.valid then
      .reject (dateValidation.message.getD "")
    else
      match availabilityCheck item startDate endDate with
      | some msg => .reject msg
      | none =>
          let lockIds := buildLockIds itemId startDate endDate
          let existingLocks :=
            lockIds.filter (fun id => docExists st.bookingLocks id)
          if existingLocks.length > 0 then
            .reject "❌ Sorry, some of the dates you selected are already booked by others. Please choose different dates."
          else .proceed lockIds

/-- Commit phase of `submitBookingRequest`: for a proceeding call, the one
atomic `batch.commit()` creating the booking and all its per-day lock
records together (or failing as a unit, leaving the store unchanged). A
rejected call performs no write. -/
def phaseB (env : SubmitEnv) (user : User) (itemId : String) (item : Item)
    (startDate endDate : Nat) (out : PhaseAOut) (st : Store) :
    SubmitResult × Store :=
  match out with
  | .reject msg => (.rejected msg, st)
  | .proceed lockIds =>
      if env.commitSucceeds then
        let booking := mkBooking env user itemId item startDate endDate lockIds
        (.created env.newBookingId booking,
         ⟨setDoc st.bookings env.newBookingId booking,
          writeLocks st.bookingLocks (mkLock env itemId item) lockIds⟩)
      else (.failed, st)

/-- `submitBookingRequest` as a whole: the check-and-read phase followed
immediately by the commit phase on the same store (the single-call,
no-interleaving semantics). DOM form reading, alerts, analytics and the
logged-in / item-loaded guards are elided; inputs arrive already parsed. -/
def submitBookingRequest (env : SubmitEnv) (user : User) (itemId : String)
    (item : Item) (startDate endDate : Nat) (st : Store) :
    SubmitResult × Store :=
  phaseB env user itemId item startDate endDate
    (phaseA env user itemId item startDate endDate st) st

/-! ### Lifecycle action (`handleBookingAction`, owner dashboard module) -/

/-- Firestore `arrayUnion` on a `statusHistory` array: appends the entry
unless an identical element is already present. -/
def arrayUnion (history : List StatusEntry) (entry : StatusEntry) :
    List StatusEntry :=
  if entry ∈ history then history else history ++ [entry]

/-- The field updates of `handleBookingAction`'s `updateDoc` applied to one
booking document. -/
def applyBookingAction (u : User) (now srvNow : Nat) (newStatus : String)
    (b : Booking) : Booking :=
  { b with
    status := newStatus
    statusHistory := arrayUnion b.statusHistory ⟨newStatus, now, u.uid⟩
    updatedAt := srvNow }

/-- `handleBookingAction(bookingId, newStatus)`: guards only that
`newStatus` is `accepted` or `declined` and that a user is logged in, then
updates the booking document in place. An `updateDoc` on a missing
document throws and is caught, leaving the store unchanged. -/
def handleBookingAction (currentUser : Option User) (now srvNow : Nat)
    (bookingId newStatus : String) (st : Store) : Store :=
  if ¬ (newStatus = "accepted" ∨ newStatus = "declined") then st
  else
    match currentUser with
    | none => st
    | some u =>
        if docExists st.bookings bookingId then
          { st with
            bookings := st.bookings.map (fun p =>
              if p.1 = bookingId then
                (p.1, applyBookingAction u now srvNow newStatus p.2)
              else p) }
        else st

/-! ### Dashboard grouping (`loadMyBookings` / `loadOwnerBookings`) -/

/-- The four display buckets of both dashboards. -/
structure BookingGroups where
  pending : List Booking
  accepted : List Booking
  declined : List Booking
  archived : List Booking
  deriving Repr, DecidableEq

/-- Legacy-label normalisation: `'confirmed'` reads as `'accepted'`. -/
def normalizeStatus (s : String) : String :=
  if s = "confirmed" then "accepted" else s

/-- The `normalized || 'pending'` default: a falsy (absent, embedded as
empty) status displays as `'pending'`. -/
def displayStatus (s : String) : String :=
  let n := normalizeStatus s
  if n = "" then "pending" else n

/-- Loop body of the renter dashboard's `snapshot.forEach`: bucket purely
by displayed status; a status matching no bucket is dropped. -/
def myBookingsPush (groups : BookingGroups) (b : Booking) : BookingGroups :=
  let status := displayStatus b.status
  if status = "pending" then { groups with pending := groups.pending ++ [b] }
  else if status = "accepted" then
    { groups with accepted := groups.accepted ++ [b] }
  else if status = "declined" then
    { groups with declined := groups.declined ++ [b] }
  else if status = "archived" then
    { groups with archived := groups.archived ++ [b] }
  else groups

/-- The grouping fold of `loadMyBookings` (renter dashboard) over the
query snapshot, in snapshot order. -/
def loadMyBookingsGroups (bs : List Booking) : BookingGroups :=
  bs.foldl myBookingsPush ⟨[], [], [], []⟩

/-- Loop body of the owner dashboard's `snapshot.forEach`: a pending or
accepted booking whose end date is strictly before today is archived;
otherwise bucket by displayed status, any unmatched status falling into
`archived`. -/
def ownerBookingsPush (today : Nat) (groups : BookingGroups) (b : Booking) :
    BookingGroups :=
  let status := displayStatus b.status
  if (status = "accepted" ∨ status = "pending") ∧ b.endDate < today then
    { groups with archived := groups.archived ++ [b] }
  else if status = "pending" then
    { groups with pending := groups.pending ++ [b] }
  else if status = "accepted" then
    { groups with accepted := groups.accepted ++ [b] }
  else if status = "declined" then
    { groups with declined := groups.declined ++ [b] }
  else if status = "archived" then
    { groups with archived := groups.archived ++ [b] }
  else { groups with archived := groups.archived ++ [b] }

/-- The grouping fold of `loadOwnerBookings` (owner dashboard) over the
query snapshot, in snapshot order. -/
def loadOwnerBookingsGroups (today : Nat) (bs : List Booking) : BookingGroups :=
  bs.foldl (ownerBookingsPush today) ⟨[], [], [], []⟩

/-! ### Two concurrent submit calls

Per §5 of the design, the only suspension points of a submit call are the
conflict-check existence reads and the atomic batch write; everything else
is synchronous. Two concurrent calls are therefore modelled as the
interleavings of the four atomic events `a1 b1 a2 b2`, where `aᵢ` is call
`i`'s check-and-read phase against the store at that moment and `bᵢ` its
commit phase, with `aᵢ` always preceding `bᵢ`. -/

/-- The fixed inputs of one submit call. -/
structure CallInputs where
  env : SubmitEnv
  user : User
  itemId : String
  item : Item
  startDate : Nat
  endDate : Nat
  deriving Repr, DecidableEq

/-- One atomic event of the two-call interleaving. -/
inductive Move where
  | a1 | b1 | a2 | b2
  deriving Repr, DecidableEq

/-- State of the two-call execution: the shared store, each call's saved
check-phase outcome, and each call's final result once committed. -/
structure ConcState where
  store : Store
  out1 : Option PhaseAOut
  res1 : Option SubmitResult
  out2 : Option PhaseAOut
  res2 : Option SubmitResult
  deriving Repr, DecidableEq

/-- Execute one event; a commit event before its call's check phase is a
no-op (such schedules are not well formed). -/
def concStep (c1 c2 : CallInputs) (s : ConcState) : Move → ConcState
  | .a1 =>
      { s with out1 := some (phaseA c1.env c1.user c1.itemId c1.item
          c1.startDate c1.endDate s.store) }
  | .b1 =>
      match s.out1 with
      | some o =>
          let r := phaseB c1.env c1.user c1.itemId c1.item
              c1.startDate c1.endDate o s.store
          { s with res1 := some r.1, store := r.2 }
      | none => s
  | .a2 =>
      { s with out2 := some (phaseA c2.env c2.user c2.itemId c2.item
          c2.startDate c2.endDate s.store) }
  | .b2 =>
      match s.out2 with
      | some o =>
          let r := phaseB c2.env c2.user c2.itemId c2.item
              c2.startDate c2.endDate o s.store
          { s with res2 := some r.1, store := r.2 }
      | none => s

/-- Run a schedule of events for the two calls from an initial store. -/
def runSchedule (c1 c2 : CallInputs) (moves : List Move) (st : Store) :
    ConcState :=
  moves.foldl (concStep c1 c2) ⟨st, none, none, none, none⟩

/-- Did an optional submit result create a booking? -/
def resultCreated : Option SubmitResult → Bool
  | some (.created _ _) => true
  | _ => false

/-- Is a submit result a creation? -/
def SubmitResult.isCreated : SubmitResult → Bool
  | .created _ _ => true
  | _ => false

/-! ### Helper lemmas: lock-key derivation -/

theorem buildLockIds_unfold (itemId : String) (s e : Nat) :
    buildLockIds itemId s e =
      if s ≤ e then lockKey itemId s :: buildLockIds itemId (s + 1) e
      else [] := by
  unfold buildLockIds
  rcases le_or_lt s e with h | h
  · have h1 : e + 1 - s = (e + 1 - (s + 1)) + 1 := by omega
    rw [h1]
    simp [buildLockIdsGo, h]
  · have h1 : e + 1 - s = 0 := by omega
    rw [h1]
    simp [buildLockIdsGo]
    omega

theorem buildLockIds_eq_map (itemId : String) :
    ∀ (n s e : Nat), e + 1 - s = n →
      buildLockIds itemId s e = (List.range' s n).map (lockKey itemId) := by
  intro n
  induction n with
  | zero =>
      intro s e h
      rw [buildLockIds_unfold]
      have : ¬ s ≤ e := by omega
      simp [this]
  | succ n ih =>
      intro s e h
      rw [buildLockIds_unfold]
      have hs : s ≤ e := by omega
      rw [if_pos hs, ih (s + 1) e (by omega), List.range'_succ, List.map_cons]

theorem mem_buildLockIds (itemId : String) {s e d : Nat}
    (h1 : s ≤ d) (h2 : d ≤ e) :
    lockKey itemId d ∈ buildLockIds itemId s e := by
  rw [buildLockIds_eq_map itemId (e + 1 - s) s e rfl]
  exact List.mem_map_of_mem _ (List.mem_range'_1.mpr ⟨h1, by omega⟩)

/-! ### Helper lemmas: the document store -/

theorem docExists_setDoc_self {α : Type} (docs : List (String × α))
    (k : String) (v : α) : docExists (setDoc docs k v) k = true := by
  simp [docExists, setDoc, List.any_append]

theorem docExists_setDoc_mono {α : Type} {docs : List (String × α)}
    {k : String} (k' : String) (v : α) (h : docExists docs k = true) :
    docExists (setDoc docs k' v) k = true := by
  simp only [docExists, setDoc, List.any_append, Bool.or_eq_true,
    List.any_eq_true, beq_iff_eq] at h ⊢
  rcases h with ⟨p, hp, hpk⟩
  by_cases hkk : p.1 = k'
  · right
    exact ⟨(k', v), by simp, by rw [← hkk, hpk]⟩
  · left
    exact ⟨p, List.mem_filter.mpr ⟨hp, by simpa using hkk⟩, hpk⟩

theorem docExists_writeLocks_mono {locks : List (String × LockRecord)}
    {k : String} (mk : String → LockRecord) (ids : List String)
    (h : docExists locks k = true) :
    docExists (writeLocks locks mk ids) k = true := by
  induction ids generalizing locks with
  | nil => exact h
  | cons id rest ih =>
      exact ih (docExists_setDoc_mono id (mk id) h)

theorem docExists_writeLocks_of_mem {locks : List (String × LockRecord)}
    {k : String} {ids : List String} (mk : String → LockRecord)
    (h : k ∈ ids) :
    docExists (writeLocks locks mk ids) k = true := by
  induction ids generalizing locks with
  | nil => cases h
  | cons id rest ih =>
      rcases List.mem_cons.mp h with h | h
      · subst h
        exact docExists_writeLocks_mono mk rest
          (docExists_setDoc_self locks k (mk k))
      · exact ih h

theorem findDoc_setDoc {α : Type} (docs : List (String × α))
    (k k' : String) (v : α) :
    findDoc (setDoc docs k' v) k = if k = k' then some v else findDoc docs k := by
  induction docs with
  | nil =>
      by_cases h : k = k'
      · simp [findDoc, setDoc, List.find?, h]
      · have hb : (k' == k) = false := by
          simp only [beq_eq_false_iff_ne, ne_eq]
          exact fun hh => h hh.symm
        simp [findDoc, setDoc, List.find?, hb, h]
  | cons d rest ih =>
      by_cases hd : d.1 = k'
      · have hstep : setDoc (d :: rest) k' v = setDoc rest k' v := by
          simp [setDoc, List.filter_cons, hd]
        rw [hstep, ih]
        by_cases h : k = k'
        · simp [h]
        · have hdk : (d.1 == k) = false := by
            simp only [beq_eq_false_iff_ne, ne_eq, hd]
            exact fun hh => h hh.symm
          simp [findDoc, List.find?_cons, h, hdk]
      · have hstep : setDoc (d :: rest) k' v = d :: setDoc rest k' v := by
          simp [setDoc, List.filter_cons, hd]
        rw [hstep]
        by_cases hdk : d.1 = k
        · have hkk : ¬ k = k' := fun hh => hd (hdk.trans hh)
          simp [findDoc, List.find?_cons, hdk, hkk]
        · have hdk' : (d.1 == k) = false := by simpa using hdk
          simp only [findDoc, List.find?_cons, hdk', cond_false]
          exact ih

theorem findDoc_writeLocks_not_mem {locks : List (String × LockRecord)}
    {k : String} {ids : List String} (mk : String → LockRecord)
    (h : k ∉ ids) :
    findDoc (writeLocks locks mk ids) k = findDoc locks k := by
  induction ids generalizing locks with
  | nil => rfl
  | cons id rest ih =>
      have hne : k ≠ id := fun hh => h (hh ▸ List.mem_cons_self id rest)
      have hrest : k ∉ rest := fun hh => h (List.mem_cons_of_mem id hh)
      show findDoc (writeLocks (setDoc locks id (mk id)) mk rest) k = _
      rw [ih hrest, findDoc_setDoc, if_neg hne]

theorem findDoc_writeLocks_of_mem {locks : List (String × LockRecord)}
    {k : String} {ids : List String} (mk : String → LockRecord)
    (h : k ∈ ids) :
    findDoc (writeLocks locks mk ids) k = some (mk k) := by
  induction ids generalizing locks with
  | nil => cases h
  | cons id rest ih =>
      show findDoc (writeLocks (setDoc locks id (mk id)) mk rest) k = _
      by_cases hr : k ∈ rest
      · exact ih hr
      · have hk : k = id := by
          rcases List.mem_cons.mp h with h | h
          · exact h
          · exact absurd h hr
        subst hk
        rw [findDoc_writeLocks_not_mem mk hr, findDoc_setDoc, if_pos rfl]

theorem docExists_of_findDoc {α : Type} {docs : List (String × α)}
    {k : String} {v : α} (h : findDoc docs k = some v) :
    docExists docs k = true := by
  induction docs with
  | nil => simp [findDoc] at h
  | cons d rest ih =>
      by_cases hd : d.1 = k
      · simp [docExists, hd]
      · have hdk : (d.1 == k) = false := by simpa using hd
        simp only [findDoc, List.find?_cons, hdk, cond_false] at h
        simp only [docExists, List.any_cons, hdk, Bool.false_or]
        exact ih h

theorem findDoc_update_self {α : Type} (docs : List (String × α))
    (bid : String) (f : α → α) :
    findDoc (docs.map (fun p => if p.1 = bid then (p.1, f p.2) else p)) bid =
      (findDoc docs bid).map f := by
  induction docs with
  | nil => rfl
  | cons d rest ih =>
      by_cases hd : d.1 = bid
      · simp [findDoc, List.find?_cons, hd]
      · have hdk : (d.1 == bid) = false := by simpa using hd
        simp only [List.map_cons, if_neg hd, findDoc, List.find?_cons, hdk,
          cond_false]
        exact ih

theorem findDoc_update_ne {α : Type} (docs : List (String × α))
    {bid bid' : String} (f : α → α) (h : bid' ≠ bid) :
    findDoc (docs.map (fun p => if p.1 = bid then (p.1, f p.2) else p)) bid' =
      findDoc docs bid' := by
  induction docs with
  | nil => rfl
  | cons d rest ih =>
      by_cases hd : d.1 = bid
      · have hdk : (d.1 == bid') = false := by
          simp only [beq_eq_false_iff_ne, ne_eq, hd]
          exact fun hh => h hh.symm
        simp only [List.map_cons, if_pos hd, findDoc, List.find?_cons, hdk,
          cond_false]
        exact ih
      · have hstep : (if d.1 = bid then (d.1, f d.2) else d) = d := if_neg hd
        simp only [List.map_cons, hstep, findDoc, List.find?_cons]
        cases hm : (d.1 == bid') with
        | true => rfl
        | false => exact ih

/-! ### Helper lemmas: split and lock-key anatomy -/

theorem splitChar_ne_nil (c : Char) (l : List Char) : splitChar c l ≠ [] := by
  cases l with
  | nil => simp [splitChar]
  | cons a rest =>
      simp only [splitChar]
      rcases h : splitChar c rest with _ | ⟨g, gs⟩
      · simp
      · by_cases hac : a = c <;> simp [hac]

theorem splitChar_no_sep {c : Char} {l : List Char}
    (h : ∀ a ∈ l, a ≠ c) : splitChar c l = [l] := by
  induction l with
  | nil => rfl
  | cons a rest ih =>
      have ha : a ≠ c := h a (List.mem_cons_self a rest)
      have hrest := ih (fun x hx => h x (List.mem_cons_of_mem a hx))
      simp only [splitChar, hrest, if_neg ha]

theorem splitChar_append {c : Char} {xs : List Char} (ys : List Char)
    (h : ∀ a ∈ xs, a ≠ c) :
    splitChar c (xs ++ c :: ys) = xs :: splitChar c ys := by
  induction xs with
  | nil =>
      simp only [List.nil_append, splitChar]
      rcases hy : splitChar c ys with _ | ⟨g, gs⟩
      · exact absurd hy (splitChar_ne_nil c ys)
      · simp
  | cons a rest ih =>
      have ha : a ≠ c := h a (List.mem_cons_self a rest)
      have hrest := ih (fun x hx => h x (List.mem_cons_of_mem a hx))
      simp only [List.cons_append, splitChar, List.append_eq]
      rw [hrest]
      simp [if_neg ha]

theorem digitChar_ne_underscore : ∀ k, k < 10 → digitChar k ≠ '_' := by decide

theorem natDigitsGo_ne_underscore :
    ∀ (fuel n : Nat), ∀ c ∈ natDigitsGo fuel n, c ≠ '_' := by
  intro fuel
  induction fuel with
  | zero => intro n c hc; cases hc
  | succ fuel ih =>
      intro n c hc
      by_cases hn : n < 10
      · simp only [natDigitsGo, if_pos hn, List.mem_singleton] at hc
        exact hc ▸ digitChar_ne_underscore n hn
      · simp only [natDigitsGo, if_neg hn, List.mem_append,
          List.mem_singleton] at hc
        rcases hc with hc | hc
        · exact ih (n / 10) c hc
        · exact hc ▸ digitChar_ne_underscore (n % 10) (Nat.mod_lt n (by omega))

theorem natToString_ne_underscore (n : Nat) :
    ∀ c ∈ (natToString n).data, c ≠ '_' :=
  fun c hc => natDigitsGo_ne_underscore (n + 1) n c hc

theorem append_ne_underscore {s t : String}
    (hs : ∀ c ∈ s.data, c ≠ '_') (ht : ∀ c ∈ t.data, c ≠ '_') :
    ∀ c ∈ (s ++ t).data, c ≠ '_' := by
  intro c hc
  rw [String.data_append] at hc
  rcases List.mem_append.mp hc with h | h
  · exact hs c h
  · exact ht c h

theorem zeroes_ne_underscore :
    (∀ c ∈ ("0" : String).data, c ≠ '_') ∧
    (∀ c ∈ ("00" : String).data, c ≠ '_') ∧
    (∀ c ∈ ("000" : String).data, c ≠ '_') ∧
    (∀ c ∈ ("-" : String).data, c ≠ '_') := by decide

theorem pad2_ne_underscore (n : Nat) : ∀ c ∈ (pad2 n).data, c ≠ '_' := by
  unfold pad2
  split
  · exact append_ne_underscore zeroes_ne_underscore.1 (natToString_ne_underscore n)
  · exact natToString_ne_underscore n

theorem pad4_ne_underscore (n : Nat) : ∀ c ∈ (pad4 n).data, c ≠ '_' := by
  unfold pad4
  split
  · exact append_ne_underscore zeroes_ne_underscore.2.2.1
      (natToString_ne_underscore n)
  · split
    · exact append_ne_underscore zeroes_ne_underscore.2.1
        (natToString_ne_underscore n)
    · split
      · exact append_ne_underscore zeroes_ne_underscore.1
          (natToString_ne_underscore n)
      · exact natToString_ne_underscore n

theorem isoDate_ne_underscore (z : Nat) : ∀ c ∈ (isoDate z).data, c ≠ '_' := by
  unfold isoDate
  exact append_ne_underscore
    (append_ne_underscore
      (append_ne_underscore
        (append_ne_underscore (pad4_ne_underscore _) zeroes_ne_underscore.2.2.2)
        (pad2_ne_underscore _))
      zeroes_ne_underscore.2.2.2)
    (pad2_ne_underscore _)

theorem stringMk_data (s : String) : String.mk s.data = s := by
  cases s
  rfl

theorem lockKey_data (itemId : String) (d : Nat) :
    (lockKey itemId d).data = itemId.data ++ '_' :: (isoDate d).data := by
  show (itemId ++ "_" ++ isoDate d).data = _
  rw [String.data_append, String.data_append,
    show ("_" : String).data = ['_'] from rfl, List.append_assoc,
    List.singleton_append]

theorem jsSplit_lockKey {itemId : String}
    (h : ∀ c ∈ itemId.data, c ≠ '_') (d : Nat) :
    jsSplit (lockKey itemId d) '_' = [itemId, isoDate d] := by
  unfold jsSplit
  rw [lockKey_data, splitChar_append _ h,
    splitChar_no_sep (isoDate_ne_underscore d)]
  rw [List.map_cons, List.map_cons, List.map_nil, stringMk_data, stringMk_data]

/-! ### Helper lemmas: anatomy of a submit call -/

theorem phaseA_proceed_inv {env : SubmitEnv} {user : User} {itemId : String}
    {item : Item} {s e : Nat} {st : Store} {l : List String}
    (h : phaseA env user itemId item s e st = .proceed l) :
    l = buildLockIds itemId s e ∧
    (buildLockIds itemId s e).filter
      (fun id => docExists st.bookingLocks id) = [] := by
  dsimp only [phaseA] at h
  by_cases h1 : item.ownerId = user.uid
  · rw [if_pos h1] at h
    cases h
  · rw [if_neg h1] at h
    by_cases h2 : ¬ (validateBookingDates env.today s e).valid = true
    · rw [if_pos h2] at h
      cases h
    · rw [if_neg h2] at h
      rcases hac : availabilityCheck item s e with _ | msg
      · rw [hac] at h
        by_cases h3 : ((buildLockIds itemId s e).filter
            (fun id => docExists st.bookingLocks id)).length > 0
        · rw [if_pos h3] at h
          cases h
        · rw [if_neg h3] at h
          injection h with h
          refine ⟨h.symm, ?_⟩
          rcases hf : (buildLockIds itemId s e).filter
              (fun id => docExists st.bookingLocks id) with _ | ⟨a, rest⟩
          · rfl
          · rw [hf] at h3
            simp at h3
      · rw [hac] at h
        cases h

theorem phaseA_no_proceed_of_conflict {env : SubmitEnv} {user : User}
    {itemId : String} {item : Item} {s e : Nat} {st : Store} {k : String}
    (hk : k ∈ buildLockIds itemId s e)
    (hex : docExists st.bookingLocks k = true) :
    ∀ l, phaseA env user itemId item s e st ≠ .proceed l := by
  intro l h
  have hf := (phaseA_proceed_inv h).2
  have : k ∈ (buildLockIds itemId s e).filter
      (fun id => docExists st.bookingLocks id) :=
    List.mem_filter.mpr ⟨hk, hex⟩
  rw [hf] at this
  cases this

theorem submit_created_inv {env : SubmitEnv} {user : User} {itemId : String}
    {item : Item} {s e : Nat} {st : Store} {bid : String} {b : Booking}
    (h : (submitBookingRequest env user itemId item s e st).1 =
      .created bid b) :
    bid = env.newBookingId ∧
    b = mkBooking env user itemId item s e (buildLockIds itemId s e) ∧
    env.commitSucceeds = true ∧
    (submitBookingRequest env user itemId item s e st).2 =
      ⟨setDoc st.bookings env.newBookingId b,
       writeLocks st.bookingLocks (mkLock env itemId item)
         (buildLockIds itemId s e)⟩ := by
  rcases ha : phaseA env user itemId item s e st with m | l
  · unfold submitBookingRequest at h
    rw [ha] at h
    cases h
  · obtain ⟨hl, -⟩ := phaseA_proceed_inv ha
    subst hl
    unfold submitBookingRequest at h ⊢
    rw [ha] at h ⊢
    simp only [phaseB] at h ⊢
    by_cases hc : env.commitSucceeds
    · rw [if_pos hc] at h ⊢
      injection h with hbid hb
      exact ⟨hbid.symm, hb.symm, hc, by rw [← hb]⟩
    · rw [if_neg hc] at h
      cases h

theorem submit_not_created_store {env : SubmitEnv} {user : User}
    {itemId : String} {item : Item} {s e : Nat} {st : Store}
    (h : (submitBookingRequest env user itemId item s e st).1.isCreated
      = false) :
    (submitBookingRequest env user itemId item s e st).2 = st := by
  rcases ha : phaseA env user itemId item s e st with m | l
  · unfold submitBookingRequest
    rw [ha]
    rfl
  · unfold submitBookingRequest at h ⊢
    rw [ha] at h ⊢
    simp only [phaseB] at h ⊢
    by_cases hc : env.commitSucceeds
    · rw [if_pos hc] at h
      simp [SubmitResult.isCreated] at h
    · rw [if_neg hc]

/-! ### Claim theorems -/

/-- C3: for every itemId and every valid range with start ≤ end,
`buildLockIds` (the key deriver) returns exactly `(end - start) + 1` keys,
one per calendar day from start to end in strictly ascending date order;
each key is the itemId concatenated with `"_"` and that day's date in
`YYYY-MM-DD` format; the first key's date is start, the last key's date is
end, and for start = end exactly one key is returned. -/
theorem buildLockIds_expansion (itemId : String) (s e : Nat) (h : s ≤ e) :
    buildLockIds itemId s e =
      (List.range' s (e - s + 1)).map (fun d => itemId ++ "_" ++ isoDate d) ∧
    (buildLockIds itemId s e).length = (e - s) + 1 ∧
    List.Pairwise (· < ·) (List.range' s (e - s + 1)) ∧
    (buildLockIds itemId s e).head? = some (itemId ++ "_" ++ isoDate s) ∧
    (buildLockIds itemId s e).getLast? = some (itemId ++ "_" ++ isoDate e) ∧
    (s = e → buildLockIds itemId s e = [itemId ++ "_" ++ isoDate s]) := by
  have hm : buildLockIds itemId s e =
      (List.range' s (e - s + 1)).map (lockKey itemId) :=
    buildLockIds_eq_map itemId (e - s + 1) s e (by omega)
  have hfmt : (lockKey itemId) = fun d => itemId ++ "_" ++ isoDate d := rfl
  refine ⟨by rw [hm, hfmt], ?_, ?_, ?_, ?_, ?_⟩
  · rw [hm]; simp
  · exact List.pairwise_lt_range' s (e - s + 1)
  · rw [hm, List.range'_succ, List.map_cons]; rfl
  · rw [hm, List.range'_concat, List.map_append]
    simp only [List.map_cons, List.map_nil, List.getLast?_concat]
    have he : s + 1 * (e - s) = e := by omega
    rw [he]
    rfl
  · intro hse
    subst hse
    rw [hm]
    simp [List.range']
    rfl

/-- Witness for C3 at itemId "item1" and the range 2025-06-10 (day 20249)
to 2025-06-12 (day 20251). -/
theorem buildLockIds_expansion_witness :
    20249 ≤ 20251 ∧
    ((buildLockIds "item1" 20249 20251).length = 3 ∧
      (buildLockIds "item1" 20249 20251).head? =
        some ("item1" ++ "_" ++ isoDate 20249) ∧
      (buildLockIds "item1" 20249 20251).getLast? =
        some ("item1" ++ "_" ++ isoDate 20251)) :=
  ⟨by decide,
   (buildLockIds_expansion "item1" 20249 20251 (by decide)).2.1,
   (buildLockIds_expansion "item1" 20249 20251 (by decide)).2.2.2.1,
   (buildLockIds_expansion "item1" 20249 20251 (by decide)).2.2.2.2.1⟩

/-- C2: every single submit call changes the persisted state atomically:
when it returns a rejection or the atomic write fails, the store is left
unchanged (no Booking, no Lock); when it returns a created Booking, the
Booking record and the Lock records for exactly its per-day lock ids are
created together by the one batch write. -/
theorem submit_atomicity (env : SubmitEnv) (user : User) (itemId : String)
    (item : Item) (s e : Nat) (st : Store) :
    (∀ msg, (submitBookingRequest env user itemId item s e st).1 =
        .rejected msg →
      (submitBookingRequest env user itemId item s e st).2 = st) ∧
    ((submitBookingRequest env user itemId item s e st).1 = .failed →
      (submitBookingRequest env user itemId item s e st).2 = st) ∧
    (∀ bid b, (submitBookingRequest env user itemId item s e st).1 =
        .created bid b →
      b.lockIds = buildLockIds itemId s e ∧
      (submitBookingRequest env user itemId item s e st).2 =
        ⟨setDoc st.bookings bid b,
         writeLocks st.bookingLocks (mkLock env itemId item) b.lockIds⟩ ∧
      findDoc (submitBookingRequest env user itemId item s e st).2.bookings
        bid = some b ∧
      (∀ k ∈ b.lockIds,
        docExists
          (submitBookingRequest env user itemId item s e st).2.bookingLocks
          k = true)) := by
  refine ⟨?_, ?_, ?_⟩
  · intro msg h
    exact submit_not_created_store (by rw [h]; rfl)
  · intro h
    exact submit_not_created_store (by rw [h]; rfl)
  · intro bid b h
    obtain ⟨hbid, hb, -, hst⟩ := submit_created_inv h
    have hlock : b.lockIds = buildLockIds itemId s e := by rw [hb]; rfl
    subst hbid
    refine ⟨hlock, by rw [hst, hlock], ?_, ?_⟩
    · rw [hst]
      show findDoc (setDoc st.bookings env.newBookingId b) env.newBookingId
        = some b
      rw [findDoc_setDoc, if_pos rfl]
    · intro k hk
      rw [hst]
      exact docExists_writeLocks_of_mem _ (hlock ▸ hk)

/-- Witness for C2: a concrete successful submit creates the lock
documents, and a concrete self-booking rejection leaves the store
unchanged. -/
theorem submit_atomicity_witness :
    (submitBookingRequest ⟨0, 5, 6, "B1", true⟩ ⟨"alice", none, "a@x.edu"⟩
        "item1" ⟨"Drill", "owner1", "Owner", "o@x.edu", none⟩ 0 1
        ⟨[], []⟩).1 =
      .created "B1"
        (mkBooking ⟨0, 5, 6, "B1", true⟩ ⟨"alice", none, "a@x.edu"⟩ "item1"
          ⟨"Drill", "owner1", "Owner", "o@x.edu", none⟩ 0 1
          (buildLockIds "item1" 0 1)) ∧
    docExists
      (submitBookingRequest ⟨0, 5, 6, "B1", true⟩ ⟨"alice", none, "a@x.edu"⟩
        "item1" ⟨"Drill", "owner1", "Owner", "o@x.edu", none⟩ 0 1
        ⟨[], []⟩).2.bookingLocks "item1_1970-01-02" = true ∧
    (submitBookingRequest ⟨0, 5, 6, "B1", true⟩ ⟨"owner1", none, "o@x.edu"⟩
        "item1" ⟨"Drill", "owner1", "Owner", "o@x.edu", none⟩ 0 1
        ⟨[], []⟩).2 = ⟨[], []⟩ := by
  refine ⟨by decide, ?_, ?_⟩
  · exact ((submit_atomicity ⟨0, 5, 6, "B1", true⟩ ⟨"alice", none, "a@x.edu"⟩
      "item1" ⟨"Drill", "owner1", "Owner", "o@x.edu", none⟩ 0 1
      ⟨[], []⟩).2.2 "B1"
      (mkBooking ⟨0, 5, 6, "B1", true⟩ ⟨"alice", none, "a@x.edu"⟩ "item1"
        ⟨"Drill", "owner1", "Owner", "o@x.edu", none⟩ 0 1
        (buildLockIds "item1" 0 1))
      (by decide)).2.2.2 "item1_1970-01-02" (by decide)
  · exact (submit_atomicity ⟨0, 5, 6, "B1", true⟩ ⟨"owner1", none, "o@x.edu"⟩
      "item1" ⟨"Drill", "owner1", "Owner", "o@x.edu", none⟩ 0 1
      ⟨[], []⟩).1 "You cannot book your own item." (by decide)

/-- C6: the range-level precheck `validateBookingDates` rejects exactly
when the start is strictly before the current date or the end is before
the start (a same-day range passes), and in `submitBookingRequest` this
precheck fires before the availability gate and the conflict check: for a
range failing the precheck (and not self-booked), the call returns the
precheck's rejection and leaves any store unchanged, whatever the item's
availability policy and whatever locks exist. -/
theorem booking_dates_precheck_first (env : SubmitEnv) (user : User)
    (itemId : String) (item : Item) (s e : Nat) (st : Store) :
    ((validateBookingDates env.today s e).valid = false ↔
      (s < env.today ∨ e < s)) ∧
    (env.today ≤ s → (validateBookingDates env.today s s).valid = true) ∧
    (item.ownerId ≠ user.uid →
      (validateBookingDates env.today s e).valid = false →
      submitBookingRequest env user itemId item s e st =
        (.rejected ((validateBookingDates env.today s e).message.getD ""),
         st)) := by
  refine ⟨?_, ?_, ?_⟩
  · unfold validateBookingDates
    by_cases h1 : s < env.today
    · simp [h1]
    · by_cases h2 : e < s <;> simp [h1, h2]
  · intro hs
    unfold validateBookingDates
    rw [if_neg (by omega), if_neg (by omega)]
  · intro howner hinvalid
    have hA : phaseA env user itemId item s e st =
        .reject ((validateBookingDates env.today s e).message.getD "") := by
      dsimp only [phaseA]
      rw [if_neg (fun hh => howner hh), if_pos (by rw [hinvalid]; simp)]
    unfold submitBookingRequest
    rw [hA]
    rfl

/-- Witness for C6 at today = 10: the inverted range (12, 11) is rejected
by the precheck and a concrete submit returns that rejection with the
store untouched; the same-day range (10, 10) passes the precheck. -/
theorem booking_dates_precheck_first_witness :
    ((validateBookingDates 10 12 11).valid = false ↔ (12 < 10 ∨ 11 < 12)) ∧
    (validateBookingDates 10 10 10).valid = true ∧
    submitBookingRequest ⟨10, 5, 6, "B1", true⟩ ⟨"alice", none, "a@x.edu"⟩
        "item1" ⟨"Drill", "owner1", "Owner", "o@x.edu",
          some ⟨some "recurring", none, none, some [2]⟩⟩ 12 11 ⟨[], []⟩ =
      (.rejected ((validateBookingDates 10 12 11).message.getD ""),
       ⟨[], []⟩) :=
  ⟨(booking_dates_precheck_first ⟨10, 5, 6, "B1", true⟩
      ⟨"alice", none, "a@x.edu"⟩ "item1"
      ⟨"Drill", "owner1", "Owner", "o@x.edu",
        some ⟨some "recurring", none, none, some [2]⟩⟩ 12 11 ⟨[], []⟩).1,
   (booking_dates_precheck_first ⟨10, 5, 6, "B1", true⟩
      ⟨"alice", none, "a@x.edu"⟩ "item1"
      ⟨"Drill", "owner1", "Owner", "o@x.edu",
        some ⟨some "recurring", none, none, some [2]⟩⟩ 10 10 ⟨[], []⟩).2.1
      (by decide),
   (booking_dates_precheck_first ⟨10, 5, 6, "B1", true⟩
      ⟨"alice", none, "a@x.edu"⟩ "item1"
      ⟨"Drill", "owner1", "Owner", "o@x.edu",
        some ⟨some "recurring", none, none, some [2]⟩⟩ 12 11 ⟨[], []⟩).2.2
      (by decide) (by decide)⟩

/-- C4: for an item with recurring availability, both the exported
evaluator `validateAvailability` and the submit path's inline gate accept
iff the candidate is a single day whose weekday is in `daysOfWeek`; any
multi-day candidate is rejected with the multi-day reason regardless of
weekday, and a single-day candidate on a wrong weekday is rejected with
the weekday reason. -/
theorem recurring_policy_evaluation (item : Item) (av : AvailabilityObj)
    (s e : Nat) (hav : item.availability = some av)
    (hty : av.type = some "recurring") :
    ((validateAvailability item s e).valid = true ↔
      (s = e ∧ (av.daysOfWeek.getD []).contains (jsGetDay s) = true)) ∧
    (availabilityCheck item s e = none ↔
      (s = e ∧ (av.daysOfWeek.getD []).contains (jsGetDay s) = true)) ∧
    (s ≠ e → validateAvailability item s e =
      ⟨false,
       some "Recurring availability items can only be booked for same-day use"⟩) ∧
    (s ≠ e → availabilityCheck item s e =
      some ("This item only allows same-day borrowing on: " ++
        String.intercalate ", "
          ((av.daysOfWeek.getD []).map (fun d => dayNames.getD d "undefined"))
        ++ ". Please select the same date for pickup and return.")) ∧
    (s = e → (av.daysOfWeek.getD []).contains (jsGetDay s) = false →
      validateAvailability item s e =
        ⟨false, some ("Item is only available on: " ++
          String.intercalate ", "
            ((av.daysOfWeek.getD []).map
              (fun d => dayNames.getD d "undefined")))⟩ ∧
      availabilityCheck item s e =
        some ("This item is only available on: " ++
          String.intercalate ", "
            ((av.daysOfWeek.getD []).map (fun d => dayNames.getD d "undefined"))
          ++ ". You selected: " ++ dayNames.getD (jsGetDay s) "undefined")) := by
  have hva : validateAvailability item s e =
      (if s ≠ e then
        ⟨false,
         some "Recurring availability items can only be booked for same-day use"⟩
      else if ¬ (av.daysOfWeek.getD []).contains (jsGetDay s) then
        ⟨false, some ("Item is only available on: " ++
          String.intercalate ", "
            ((av.daysOfWeek.getD []).map
              (fun d => dayNames.getD d "undefined")))⟩
      else ⟨true, none⟩) := by
    dsimp only [validateAvailability]
    rw [hav]
    simp only [Option.getD_some, hty]
    rw [if_neg (by decide), if_neg (by decide), if_pos trivial]
  have hac : availabilityCheck item s e =
      (if s ≠ e then
        some ("This item only allows same-day borrowing on: " ++
          String.intercalate ", "
            ((av.daysOfWeek.getD []).map (fun d => dayNames.getD d "undefined"))
          ++ ". Please select the same date for pickup and return.")
      else if ¬ (av.daysOfWeek.getD []).contains (jsGetDay s) then
        some ("This item is only available on: " ++
          String.intercalate ", "
            ((av.daysOfWeek.getD []).map (fun d => dayNames.getD d "undefined"))
          ++ ". You selected: " ++ dayNames.getD (jsGetDay s) "undefined")
      else none) := by
    dsimp only [availabilityCheck]
    rw [hav]
    simp only [hty]
    rw [if_neg (by decide), if_pos trivial]
  rw [hva, hac]
  by_cases hse : s = e
  · by_cases hdw : (av.daysOfWeek.getD []).contains (jsGetDay s) = true
    · rw [if_neg (show ¬ (s ≠ e) by omega),
        if_neg (show ¬ (s ≠ e) by omega),
        if_neg (show ¬ ¬ (av.daysOfWeek.getD []).contains (jsGetDay s) = true
          by rw [hdw]; simp),
        if_neg (show ¬ ¬ (av.daysOfWeek.getD []).contains (jsGetDay s) = true
          by rw [hdw]; simp)]
      refine ⟨by simpa [hse] using hdw, by simpa [hse] using hdw, ?_, ?_, ?_⟩
      · intro hne; exact absurd hse hne
      · intro hne; exact absurd hse hne
      · intro _ hdw'
        rw [hdw] at hdw'
        cases hdw'
    · have hdw' : (av.daysOfWeek.getD []).contains (jsGetDay s) = false := by
        simpa using hdw
      rw [if_neg (show ¬ (s ≠ e) by omega),
        if_neg (show ¬ (s ≠ e) by omega),
        if_pos (show ¬ (av.daysOfWeek.getD []).contains (jsGetDay s) = true
          by rw [hdw']; simp),
        if_pos (show ¬ (av.daysOfWeek.getD []).contains (jsGetDay s) = true
          by rw [hdw']; simp)]
      refine ⟨?_, ?_, fun hne => absurd hse hne, fun hne => absurd hse hne,
        fun _ _ => ⟨rfl, rfl⟩⟩
      · constructor
        · intro hfalse
          cases hfalse
        · rintro ⟨-, hc⟩
          rw [hdw'] at hc
          cases hc
      · constructor
        · intro hnone
          cases hnone
        · rintro ⟨-, hc⟩
          rw [hdw'] at hc
          cases hc
  · rw [if_pos (show s ≠ e from hse), if_pos (show s ≠ e from hse)]
    refine ⟨by simp [hse], by simp [hse], fun _ => rfl, fun _ => rfl, ?_⟩
    intro hse'
    exact absurd hse' hse

/-- Witness for C4 on a Tuesday-only recurring item: Tuesday 2025-06-10
(day 20249) alone is accepted, the multi-day span to 2025-06-11 is
rejected, and single-day Wednesday 2025-06-11 (day 20250) is rejected. -/
theorem recurring_policy_evaluation_witness :
    (validateAvailability
      ⟨"Bike", "owner1", "Owner", "o@x.edu",
        some ⟨some "recurring", none, none, some [2]⟩⟩ 20249 20249).valid
      = true ∧
    (validateAvailability
      ⟨"Bike", "owner1", "Owner", "o@x.edu",
        some ⟨some "recurring", none, none, some [2]⟩⟩ 20249 20250).valid
      = false ∧
    (validateAvailability
      ⟨"Bike", "owner1", "Owner", "o@x.edu",
        some ⟨some "recurring", none, none, some [2]⟩⟩ 20250 20250).valid
      = false := by
  refine ⟨?_, ?_, ?_⟩
  · exact (recurring_policy_evaluation
      ⟨"Bike", "owner1", "Owner", "o@x.edu",
        some ⟨some "recurring", none, none, some [2]⟩⟩
      ⟨some "recurring", none, none, some [2]⟩ 20249 20249 rfl rfl).1.mpr
      ⟨rfl, by decide⟩
  · rw [(recurring_policy_evaluation
      ⟨"Bike", "owner1", "Owner", "o@x.edu",
        some ⟨some "recurring", none, none, some [2]⟩⟩
      ⟨some "recurring", none, none, some [2]⟩ 20249 20250 rfl rfl).2.2.1
      (by decide)]
  · rw [((recurring_policy_evaluation
      ⟨"Bike", "owner1", "Owner", "o@x.edu",
        some ⟨some "recurring", none, none, some [2]⟩⟩
      ⟨some "recurring", none, none, some [2]⟩ 20250 20250 rfl rfl).2.2.2.2
      rfl (by decide)).1]

/-- C5 (amended): for an item with dateRange availability, a candidate
fully inside the window is accepted (an absent bound imposes no limit);
when the start bound is present and the candidate starts before it, the
request is rejected with the before-window reason; when the end bound is
present and the candidate ends after it, the request is rejected with the
after-window reason provided the before-window check did not already fire
(the before-window check has precedence). Both the exported evaluator and
the submit path's inline gate behave this way. -/
theorem dateRange_policy_evaluation (item : Item) (av : AvailabilityObj)
    (s e : Nat) (hav : item.availability = some av)
    (hty : av.type = some "dateRange") :
    ((∀ a ∈ av.startDate, a ≤ s) → (∀ b ∈ av.endDate, e ≤ b) →
      validateAvailability item s e = ⟨true, none⟩ ∧
      availabilityCheck item s e = none) ∧
    (∀ a ∈ av.startDate, s < a →
      validateAvailability item s e =
        ⟨false, some ("Item is only available from " ++
          toLocaleDateString a)⟩ ∧
      availabilityCheck item s e =
        some ("Item is only available from " ++ toLocaleDateString a)) ∧
    (∀ b ∈ av.endDate, b < e → (∀ a ∈ av.startDate, a ≤ s) →
      validateAvailability item s e =
        ⟨false, some ("Item is only available until " ++
          toLocaleDateString b)⟩ ∧
      availabilityCheck item s e =
        some ("Item is only available until " ++ toLocaleDateString b)) := by
  have hva0 : ∀ r : ValidationResult,
      (validateAvailability item s e = r) =
      ((match av.startDate with
        | some availStart =>
            if s < availStart then
              (⟨false, some ("Item is only available from " ++
                toLocaleDateString availStart)⟩ : ValidationResult)
            else
              match av.endDate with
              | some availEnd =>
                  if availEnd < e then
                    ⟨false, some ("Item is only available until " ++
                      toLocaleDateString availEnd)⟩
                  else ⟨true, none⟩
              | none => ⟨true, none⟩
        | none =>
            match av.endDate with
            | some availEnd =>
                if availEnd < e then
                  ⟨false, some ("Item is only available until " ++
                    toLocaleDateString availEnd)⟩
                else ⟨true, none⟩
            | none => ⟨true, none⟩) = r) := by
    intro r
    congr 1
    dsimp only [validateAvailability]
    rw [hav]
    simp only [Option.getD_some, hty]
    rw [if_neg (by decide), if_pos trivial]
  have hac0 : ∀ r : Option String,
      (availabilityCheck item s e = r) =
      ((match av.startDate with
        | some itemStartDate =>
            if s < itemStartDate then
              some ("Item is only available from " ++
                toLocaleDateString itemStartDate)
            else
              match av.endDate with
              | some itemEndDate =>
                  if itemEndDate < e then
                    some ("Item is only available until " ++
                      toLocaleDateString itemEndDate)
                  else none
              | none => none
        | none =>
            match av.endDate with
            | some itemEndDate =>
                if itemEndDate < e then
                  some ("Item is only available until " ++
                    toLocaleDateString itemEndDate)
                else none
            | none => none) = r) := by
    intro r
    congr 1
    dsimp only [availabilityCheck]
    rw [hav]
    simp only [hty]
    rw [if_pos trivial]
  refine ⟨?_, ?_, ?_⟩
  · intro hs he
    rw [hva0, hac0]
    rcases hsd : av.startDate with _ | a <;>
      rcases hed : av.endDate with _ | b <;> dsimp only
    · exact ⟨rfl, rfl⟩
    · have hb := he b (by rw [hed]; rfl)
      rw [if_neg (show ¬ b < e by omega), if_neg (show ¬ b < e by omega)]
      exact ⟨rfl, rfl⟩
    · have ha := hs a (by rw [hsd]; rfl)
      rw [if_neg (show ¬ s < a by omega), if_neg (show ¬ s < a by omega)]
      exact ⟨rfl, rfl⟩
    · have ha := hs a (by rw [hsd]; rfl)
      have hb := he b (by rw [hed]; rfl)
      rw [if_neg (show ¬ s < a by omega), if_neg (show ¬ s < a by omega),
        if_neg (show ¬ b < e by omega), if_neg (show ¬ b < e by omega)]
      exact ⟨rfl, rfl⟩
  · intro a ha hlt
    have hsd : av.startDate = some a := Option.mem_def.mp ha
    rw [hva0, hac0, hsd]
    dsimp only
    rw [if_pos hlt, if_pos hlt]
    exact ⟨rfl, rfl⟩
  · intro b hb hlt hs
    have hed : av.endDate = some b := Option.mem_def.mp hb
    rw [hva0, hac0, hed]
    rcases hsd : av.startDate with _ | a <;> dsimp only
    · rw [if_pos hlt, if_pos hlt]
      exact ⟨rfl, rfl⟩
    · have ha := hs a (by rw [hsd]; rfl)
      rw [if_neg (show ¬ s < a by omega), if_neg (show ¬ s < a by omega),
        if_pos hlt, if_pos hlt]
      exact ⟨rfl, rfl⟩

/-- C5 counterexample: with window [day 10, day 20] and candidate
(day 5, day 25), both bounds are violated, yet both the evaluator and the
submit gate reject with the before-window reason, not the after-window
reason the claim assigns to any candidate ending past the window. -/
theorem dateRange_reason_precedence_counterexample :
    validateAvailability
      ⟨"Drill", "owner1", "Owner", "o@x.edu",
        some ⟨some "dateRange", some 10, some 20, none⟩⟩ 5 25 =
      ⟨false, some ("Item is only available from " ++
        toLocaleDateString 10)⟩ ∧
    availabilityCheck
      ⟨"Drill", "owner1", "Owner", "o@x.edu",
        some ⟨some "dateRange", some 10, some 20, none⟩⟩ 5 25 =
      some ("Item is only available from " ++ toLocaleDateString 10) ∧
    ("Item is only available from " ++ toLocaleDateString 10) ≠
      ("Item is only available until " ++ toLocaleDateString 20) := by
  decide

/-- Witness for C5 (amended) on the window [day 10, day 20]: a candidate
inside the window is accepted, one starting before day 10 gets the
before-window reason, and one ending after day 20 (starting inside) gets
the after-window reason. -/
theorem dateRange_policy_evaluation_witness :
    validateAvailability
      ⟨"Drill", "owner1", "Owner", "o@x.edu",
        some ⟨some "dateRange", some 10, some 20, none⟩⟩ 12 18 =
      ⟨true, none⟩ ∧
    availabilityCheck
      ⟨"Drill", "owner1", "Owner", "o@x.edu",
        some ⟨some "dateRange", some 10, some 20, none⟩⟩ 5 15 =
      some ("Item is only available from " ++ toLocaleDateString 10) ∧
    validateAvailability
      ⟨"Drill", "owner1", "Owner", "o@x.edu",
        some ⟨some "dateRange", some 10, some 20, none⟩⟩ 12 25 =
      ⟨false, some ("Item is only available until " ++
        toLocaleDateString 20)⟩ := by
  refine ⟨?_, ?_, ?_⟩
  · exact ((dateRange_policy_evaluation
      ⟨"Drill", "owner1", "Owner", "o@x.edu",
        some ⟨some "dateRange", some 10, some 20, none⟩⟩
      ⟨some "dateRange", some 10, some 20, none⟩ 12 18 rfl rfl).1
      (by intro a ha; rw [Option.mem_def] at ha; injection ha with h; omega)
      (by intro b hb; rw [Option.mem_def] at hb; injection hb with h;
          omega)).1
  · exact ((dateRange_policy_evaluation
      ⟨"Drill", "owner1", "Owner", "o@x.edu",
        some ⟨some "dateRange", some 10, some 20, none⟩⟩
      ⟨some "dateRange", some 10, some 20, none⟩ 5 15 rfl rfl).2.1 10
      (by rw [Option.mem_def]) (by omega)).2
  · exact ((dateRange_policy_evaluation
      ⟨"Drill", "owner1", "Owner", "o@x.edu",
        some ⟨some "dateRange", some 10, some 20, none⟩⟩
      ⟨some "dateRange", some 10, some 20, none⟩ 12 25 rfl rfl).2.2 20
      (by rw [Option.mem_def]) (by omega)
      (by intro a ha; rw [Option.mem_def] at ha; injection ha with h;
          omega)).1

/-- C10: for an item whose availability field is absent or whose
availability type is none of "always", "dateRange", "recurring", the
submit path imposes no availability restriction at all — its inline gate
passes and, given the date precheck passes (and no self-booking), the
call proceeds directly to the conflict check — even though the exported
`validateAvailability` returns invalid with "Unknown availability type"
for the same item. -/
theorem unknown_availability_no_restriction (env : SubmitEnv) (user : User)
    (itemId : String) (item : Item) (s e : Nat) (st : Store)
    (h : ∀ av, item.availability = some av →
      av.type ≠ some "always" ∧ av.type ≠ some "dateRange" ∧
      av.type ≠ some "recurring") :
    availabilityCheck item s e = none ∧
    validateAvailability item s e =
      ⟨false, some "Unknown availability type"⟩ ∧
    (item.ownerId ≠ user.uid →
      (validateBookingDates env.today s e).valid = true →
      phaseA env user itemId item s e st =
        (if ((buildLockIds itemId s e).filter
            (fun id => docExists st.bookingLocks id)).length > 0 then
          .reject "❌ Sorry, some of the dates you selected are already booked by others. Please choose different dates."
        else .proceed (buildLockIds itemId s e))) := by
  have hgate : availabilityCheck item s e = none := by
    rcases hao : item.availability with _ | av
    · dsimp only [availabilityCheck]
      rw [hao]
    · obtain ⟨h1, h2, h3⟩ := h av hao
      dsimp only [availabilityCheck]
      rw [hao]
      dsimp only
      rw [if_neg h2, if_neg h3]
  have hval : validateAvailability item s e =
      ⟨false, some "Unknown availability type"⟩ := by
    rcases hao : item.availability with _ | av
    · dsimp only [validateAvailability]
      rw [hao]
      rfl
    · obtain ⟨h1, h2, h3⟩ := h av hao
      dsimp only [validateAvailability]
      rw [hao]
      simp only [Option.getD_some]
      rw [if_neg h1, if_neg h2, if_neg h3]
  refine ⟨hgate, hval, ?_⟩
  intro howner hpre
  dsimp only [phaseA]
  rw [if_neg (fun hh => howner hh),
    if_neg (show ¬ ¬ (validateBookingDates env.today s e).valid = true from
      by rw [hpre]; simp),
    hgate]

/-- Witness for C10: an item with availability type "weird" is let through
the submit gate (which proceeds to the conflict check on an empty store)
while the exported validator reports it unknown. -/
theorem unknown_availability_no_restriction_witness :
    availabilityCheck
      ⟨"Drill", "owner1", "Owner", "o@x.edu",
        some ⟨some "weird", none, none, none⟩⟩ 3 4 = none ∧
    validateAvailability
      ⟨"Drill", "owner1", "Owner", "o@x.edu",
        some ⟨some "weird", none, none, none⟩⟩ 3 4 =
      ⟨false, some "Unknown availability type"⟩ ∧
    phaseA ⟨0, 5, 6, "B1", true⟩ ⟨"alice", none, "a@x.edu"⟩ "item1"
      ⟨"Drill", "owner1", "Owner", "o@x.edu",
        some ⟨some "weird", none, none, none⟩⟩ 3 4 ⟨[], []⟩ =
      .proceed (buildLockIds "item1" 3 4) := by
  have h := unknown_availability_no_restriction ⟨0, 5, 6, "B1", true⟩
    ⟨"alice", none, "a@x.edu"⟩ "item1"
    ⟨"Drill", "owner1", "Owner", "o@x.edu",
      some ⟨some "weird", none, none, none⟩⟩ 3 4 ⟨[], []⟩
    (by intro av hav; injection hav with hh; rw [← hh]
        exact ⟨by decide, by decide, by decide⟩)
  refine ⟨h.1, h.2.1, ?_⟩
  rw [h.2.2 (by decide) (by decide)]
  rw [if_neg (by decide)]

/-- C7 counterexample: for itemId "a_b" (which contains an underscore), a
successful submit writes a Lock whose `date` field is "b" — the itemId
fragment after the first underscore — and not the day's ISO date
"1970-01-01", the ISODate component of the key "a_b_1970-01-01". -/
theorem lock_date_underscore_counterexample :
    (findDoc (submitBookingRequest ⟨0, 5, 6, "B1", true⟩
        ⟨"alice", none, "a@x.edu"⟩ "a_b"
        ⟨"Drill", "owner1", "Owner", "o@x.edu", none⟩ 0 0
        ⟨[], []⟩).2.bookingLocks "a_b_1970-01-01").map LockRecord.date =
      some "b" ∧
    ("b" : String) ≠ "1970-01-01" ∧
    isoDate 0 = "1970-01-01" := by decide

/-- C7 (amended): for every successful submit the created Booking's
persisted lockIds are exactly the calendar-day expansion of its own range,
and the Lock written under each key holds the created Booking's id and a
`date` field equal to `key.split('_')[1]`; the latter equals the day's ISO
calendar date for every itemId that does not contain an underscore (for an
itemId containing '_', the stored date is instead the itemId fragment
between its first and second underscore). -/
theorem getD_pair_one {α : Type} (a b c : α) : [a, b].getD 1 c = b := rfl

theorem lock_records_backref_and_date (env : SubmitEnv) (user : User)
    (itemId : String) (item : Item) (s e : Nat) (st : Store)
    (bid : String) (b : Booking)
    (hcreated : (submitBookingRequest env user itemId item s e st).1 =
      .created bid b)
    (hid : ∀ c ∈ itemId.data, c ≠ '_') :
    b.lockIds = buildLockIds itemId s e ∧
    (∀ d, s ≤ d → d ≤ e →
      findDoc
        (submitBookingRequest env user itemId item s e st).2.bookingLocks
        (lockKey itemId d) =
        some ⟨bid, itemId, isoDate d, item.ownerId, env.srvNow⟩) := by
  obtain ⟨hbid, hb, -, hst⟩ := submit_created_inv hcreated
  refine ⟨by rw [hb]; rfl, ?_⟩
  intro d hds hde
  rw [hst]
  show findDoc (writeLocks st.bookingLocks (mkLock env itemId item)
    (buildLockIds itemId s e)) (lockKey itemId d) = _
  rw [findDoc_writeLocks_of_mem _ (mem_buildLockIds itemId hds hde)]
  unfold mkLock
  rw [jsSplit_lockKey hid d, hbid, getD_pair_one]

/-- Witness for C7 (amended): itemId "item1" (no underscore), range day 0
to day 1; the lock under "item1_1970-01-02" back-references booking "B1"
and stores the ISO date "1970-01-02". -/
theorem lock_records_backref_and_date_witness :
    (submitBookingRequest ⟨0, 5, 6, "B1", true⟩ ⟨"alice", none, "a@x.edu"⟩
        "item1" ⟨"Drill", "owner1", "Owner", "o@x.edu", none⟩ 0 1
        ⟨[], []⟩).1 =
      .created "B1"
        (mkBooking ⟨0, 5, 6, "B1", true⟩ ⟨"alice", none, "a@x.edu"⟩ "item1"
          ⟨"Drill", "owner1", "Owner", "o@x.edu", none⟩ 0 1
          (buildLockIds "item1" 0 1)) ∧
    findDoc (submitBookingRequest ⟨0, 5, 6, "B1", true⟩
        ⟨"alice", none, "a@x.edu"⟩ "item1"
        ⟨"Drill", "owner1", "Owner", "o@x.edu", none⟩ 0 1
        ⟨[], []⟩).2.bookingLocks (lockKey "item1" 1) =
      some ⟨"B1", "item1", isoDate 1, "owner1", 6⟩ := by
  refine ⟨by decide, ?_⟩
  exact (lock_records_backref_and_date ⟨0, 5, 6, "B1", true⟩
    ⟨"alice", none, "a@x.edu"⟩ "item1"
    ⟨"Drill", "owner1", "Owner", "o@x.edu", none⟩ 0 1 ⟨[], []⟩ "B1"
    (mkBooking ⟨0, 5, 6, "B1", true⟩ ⟨"alice", none, "a@x.edu"⟩ "item1"
      ⟨"Drill", "owner1", "Owner", "o@x.edu", none⟩ 0 1
      (buildLockIds "item1" 0 1))
    (by decide) (by decide)).2 1 (by decide) (by decide)

/-- C8 counterexample: `handleBookingAction` checks neither that the
caller is the item owner nor that the booking is pending: user "mallory"
(not the owner "owner1") moves booking "B1" from "declined" to "accepted",
and the transition is applied. -/
theorem booking_action_unguarded_counterexample :
    (findDoc (handleBookingAction (some ⟨"mallory", none, "m@x.edu"⟩) 9 10
        "B1" "accepted"
        ⟨[("B1", ⟨"item1", "Drill", "alice", "alice", "a@x.edu", "owner1",
          "Owner", "o@x.edu", 0, 1, "declined",
          [⟨"pending", 1, "alice"⟩, ⟨"declined", 2, "owner1"⟩],
          ["item1_1970-01-01"], 0, 2⟩)], []⟩).bookings "B1").map
      Booking.status = some "accepted" ∧
    (⟨"item1", "Drill", "alice", "alice", "a@x.edu", "owner1", "Owner",
      "o@x.edu", 0, 1, "declined",
      [⟨"pending", 1, "alice"⟩, ⟨"declined", 2, "owner1"⟩],
      ["item1_1970-01-01"], 0, 2⟩ : Booking).status = "declined" ∧
    ("mallory" : String) ≠ "owner1" := by decide

/-- C8 (amended): `handleBookingAction` applies a transition to "accepted"
or "declined" for any logged-in caller and from any current status — the
owner-only / pending-only restriction is enforced only by the owner
dashboard UI, which renders action buttons just for pending bookings.
Each applied transition sets the status field and appends (via arrayUnion)
exactly one {status, at, by} entry to statusHistory, leaves other booking
documents and the lock collection untouched. -/
theorem booking_action_transition (u : User) (now srvNow : Nat)
    (bookingId newStatus : String) (st : Store) (b : Booking)
    (hstatus : newStatus = "accepted" ∨ newStatus = "declined")
    (hfound : findDoc st.bookings bookingId = some b) :
    findDoc (handleBookingAction (some u) now srvNow bookingId newStatus
        st).bookings bookingId =
      some { b with
        status := newStatus
        statusHistory := arrayUnion b.statusHistory ⟨newStatus, now, u.uid⟩
        updatedAt := srvNow } ∧
    (⟨newStatus, now, u.uid⟩ ∉ b.statusHistory →
      arrayUnion b.statusHistory ⟨newStatus, now, u.uid⟩ =
        b.statusHistory ++ [⟨newStatus, now, u.uid⟩]) ∧
    (∀ bid', bid' ≠ bookingId →
      findDoc (handleBookingAction (some u) now srvNow bookingId newStatus
        st).bookings bid' = findDoc st.bookings bid') ∧
    (handleBookingAction (some u) now srvNow bookingId newStatus
      st).bookingLocks = st.bookingLocks := by
  have hact : handleBookingAction (some u) now srvNow bookingId newStatus st
      = { st with
          bookings := st.bookings.map (fun p =>
            if p.1 = bookingId then
              (p.1, applyBookingAction u now srvNow newStatus p.2)
            else p) } := by
    dsimp only [handleBookingAction]
    rw [if_neg (not_not_intro hstatus),
      if_pos (docExists_of_findDoc hfound)]
  refine ⟨?_, ?_, ?_, ?_⟩
  · rw [hact]
    show findDoc (st.bookings.map (fun p =>
      if p.1 = bookingId then
        (p.1, applyBookingAction u now srvNow newStatus p.2)
      else p)) bookingId = _
    rw [findDoc_update_self, hfound, Option.map_some']
    rfl
  · intro hnm
    unfold arrayUnion
    rw [if_neg hnm]
  · intro bid' hne
    rw [hact]
    exact findDoc_update_ne st.bookings _ hne
  · rw [hact]

/-- Witness for C8 (amended): the owner accepts a pending booking; the
status becomes "accepted" with one appended history entry, and the lock
collection is untouched. -/
theorem booking_action_transition_witness :
    findDoc (handleBookingAction (some ⟨"owner1", none, "o@x.edu"⟩) 9 10
        "B1" "accepted"
        ⟨[("B1", ⟨"item1", "Drill", "alice", "alice", "a@x.edu", "owner1",
          "Owner", "o@x.edu", 0, 1, "pending", [⟨"pending", 1, "alice"⟩],
          ["item1_1970-01-01"], 0, 1⟩)], []⟩).bookings "B1" =
      some ⟨"item1", "Drill", "alice", "alice", "a@x.edu", "owner1",
        "Owner", "o@x.edu", 0, 1, "accepted",
        [⟨"pending", 1, "alice"⟩, ⟨"accepted", 9, "owner1"⟩],
        ["item1_1970-01-01"], 0, 10⟩ := by
  have h := booking_action_transition ⟨"owner1", none, "o@x.edu"⟩ 9 10
    "B1" "accepted"
    ⟨[("B1", ⟨"item1", "Drill", "alice", "alice", "a@x.edu", "owner1",
      "Owner", "o@x.edu", 0, 1, "pending", [⟨"pending", 1, "alice"⟩],
      ["item1_1970-01-01"], 0, 1⟩)], []⟩
    ⟨"item1", "Drill", "alice", "alice", "a@x.edu", "owner1", "Owner",
      "o@x.edu", 0, 1, "pending", [⟨"pending", 1, "alice"⟩],
      ["item1_1970-01-01"], 0, 1⟩
    (Or.inl rfl) (by decide)
  rw [h.1, h.2.1 (by decide)]
  rfl

theorem loadMyBookingsGroups_go (bs : List Booking) :
    ∀ g : BookingGroups,
      bs.foldl myBookingsPush g =
        ⟨g.pending ++ bs.filter
            (fun b => decide (displayStatus b.status = "pending")),
         g.accepted ++ bs.filter
            (fun b => decide (displayStatus b.status = "accepted")),
         g.declined ++ bs.filter
            (fun b => decide (displayStatus b.status = "declined")),
         g.archived ++ bs.filter
            (fun b => decide (displayStatus b.status = "archived"))⟩ := by
  induction bs with
  | nil =>
      intro g
      cases g
      simp
  | cons b rest ih =>
      intro g
      rw [List.foldl_cons, ih]
      by_cases h1 : displayStatus b.status = "pending"
      · simp [myBookingsPush, h1, List.filter_cons]
      · by_cases h2 : displayStatus b.status = "accepted"
        · simp [myBookingsPush, h1, h2, List.filter_cons]
        · by_cases h3 : displayStatus b.status = "declined"
          · simp [myBookingsPush, h1, h2, h3, List.filter_cons]
          · by_cases h4 : displayStatus b.status = "archived"
            · simp [myBookingsPush, h1, h2, h3, h4, List.filter_cons]
            · simp [myBookingsPush, h1, h2, h3, h4, List.filter_cons]

theorem loadOwnerBookingsGroups_go (today : Nat) (bs : List Booking) :
    ∀ g : BookingGroups,
      bs.foldl (ownerBookingsPush today) g =
        ⟨g.pending ++ bs.filter (fun b =>
            decide (displayStatus b.status = "pending" ∧
              ¬ b.endDate < today)),
         g.accepted ++ bs.filter (fun b =>
            decide (displayStatus b.status = "accepted" ∧
              ¬ b.endDate < today)),
         g.declined ++ bs.filter (fun b =>
            decide (displayStatus b.status = "declined")),
         g.archived ++ bs.filter (fun b =>
            decide (((displayStatus b.status = "accepted" ∨
                displayStatus b.status = "pending") ∧ b.endDate < today) ∨
              (displayStatus b.status ≠ "pending" ∧
               displayStatus b.status ≠ "accepted" ∧
               displayStatus b.status ≠ "declined" ∧
               displayStatus b.status ≠ "archived") ∨
              (displayStatus b.status = "archived")))⟩ := by
  induction bs with
  | nil =>
      intro g
      cases g
      simp
  | cons b rest ih =>
      intro g
      rw [List.foldl_cons, ih]
      by_cases hA : (displayStatus b.status = "accepted" ∨
          displayStatus b.status = "pending") ∧ b.endDate < today
      · have hd : displayStatus b.status ≠ "declined" := by
          rcases hA.1 with h | h <;> simp [h]
        have har : displayStatus b.status ≠ "archived" := by
          rcases hA.1 with h | h <;> simp [h]
        simp only [ownerBookingsPush, if_pos hA]
        rcases hA with ⟨hs, ht⟩
        rcases hs with h | h <;>
          simp [List.filter_cons, h, ht, hd, har]
      · by_cases h1 : displayStatus b.status = "pending"
        · have hnt : ¬ b.endDate < today := fun ht => hA ⟨Or.inr h1, ht⟩
          have hle : today ≤ b.endDate := Nat.not_lt.mp hnt
          simp [ownerBookingsPush, hA, h1, hnt, hle, List.filter_cons]
        · by_cases h2 : displayStatus b.status = "accepted"
          · have hnt : ¬ b.endDate < today := fun ht => hA ⟨Or.inl h2, ht⟩
            have hle : today ≤ b.endDate := Nat.not_lt.mp hnt
            simp [ownerBookingsPush, hA, h1, h2, hnt, hle, List.filter_cons]
          · by_cases h3 : displayStatus b.status = "declined"
            · simp [ownerBookingsPush, hA, h1, h2, h3, List.filter_cons]
            · by_cases h4 : displayStatus b.status = "archived"
              · simp [ownerBookingsPush, hA, h1, h2, h3, h4,
                  List.filter_cons]
              · simp [ownerBookingsPush, hA, h1, h2, h3, h4,
                  List.filter_cons]

/-- C9 counterexample: a pending booking whose range ended before today
(endDate day 0, today day 1) is archived by the owner view's grouping but
stays in the pending bucket of the renter view's grouping — the renter
view never applies the archival rule. -/
theorem renter_view_no_archival_counterexample :
    loadMyBookingsGroups
      [⟨"item1", "Drill", "alice", "alice", "a@x.edu", "owner1", "Owner",
        "o@x.edu", 0, 0, "pending", [⟨"pending", 0, "alice"⟩],
        ["item1_1970-01-01"], 0, 0⟩] =
      ⟨[⟨"item1", "Drill", "alice", "alice", "a@x.edu", "owner1", "Owner",
        "o@x.edu", 0, 0, "pending", [⟨"pending", 0, "alice"⟩],
        ["item1_1970-01-01"], 0, 0⟩], [], [], []⟩ ∧
    loadOwnerBookingsGroups 1
      [⟨"item1", "Drill", "alice", "alice", "a@x.edu", "owner1", "Owner",
        "o@x.edu", 0, 0, "pending", [⟨"pending", 0, "alice"⟩],
        ["item1_1970-01-01"], 0, 0⟩] =
      ⟨[], [], [],
       [⟨"item1", "Drill", "alice", "alice", "a@x.edu", "owner1", "Owner",
        "o@x.edu", 0, 0, "pending", [⟨"pending", 0, "alice"⟩],
        ["item1_1970-01-01"], 0, 0⟩]⟩ ∧
    (0 : Nat) < 1 := by decide

/-- C9 (amended): the owner view's grouping applies the archival rule
before bucketing — a pending or accepted booking whose end date is before
today lands in archived, a declined booking is never archived, a legacy
"confirmed" status is treated as "accepted" (via displayStatus), and an
unrecognised status lands in archived — while the renter view's grouping
applies no archival rule at all: it buckets purely by the displayed
status, dropping bookings whose status matches no bucket. -/
theorem dashboard_grouping (today : Nat) (bs : List Booking) :
    loadMyBookingsGroups bs =
      ⟨bs.filter (fun b => decide (displayStatus b.status = "pending")),
       bs.filter (fun b => decide (displayStatus b.status = "accepted")),
       bs.filter (fun b => decide (displayStatus b.status = "declined")),
       bs.filter (fun b => decide (displayStatus b.status = "archived"))⟩ ∧
    loadOwnerBookingsGroups today bs =
      ⟨bs.filter (fun b =>
          decide (displayStatus b.status = "pending" ∧
            ¬ b.endDate < today)),
       bs.filter (fun b =>
          decide (displayStatus b.status = "accepted" ∧
            ¬ b.endDate < today)),
       bs.filter (fun b => decide (displayStatus b.status = "declined")),
       bs.filter (fun b =>
          decide (((displayStatus b.status = "accepted" ∨
              displayStatus b.status = "pending") ∧ b.endDate < today) ∨
            (displayStatus b.status ≠ "pending" ∧
             displayStatus b.status ≠ "accepted" ∧
             displayStatus b.status ≠ "declined" ∧
             displayStatus b.status ≠ "archived") ∨
            (displayStatus b.status = "archived")))⟩ := by
  constructor
  · rw [loadMyBookingsGroups, loadMyBookingsGroups_go]
    simp
  · rw [loadOwnerBookingsGroups, loadOwnerBookingsGroups_go]
    simp

theorem submit_created_phaseA {env : SubmitEnv} {user : User}
    {itemId : String} {item : Item} {s e : Nat} {st : Store} {bid : String}
    {b : Booking}
    (h : (submitBookingRequest env user itemId item s e st).1 =
      .created bid b) :
    ∃ l, phaseA env user itemId item s e st = .proceed l := by
  rcases ha : phaseA env user itemId item s e st with m | l
  · unfold submitBookingRequest at h
    rw [ha] at h
    cases h
  · exact ⟨l, rfl⟩

theorem runSchedule_serial_eq (c1 c2 : CallInputs) (st : Store) :
    runSchedule c1 c2 [.a1, .b1, .a2, .b2] st =
      { store := (submitBookingRequest c2.env c2.user c2.itemId c2.item
          c2.startDate c2.endDate
          (submitBookingRequest c1.env c1.user c1.itemId c1.item
            c1.startDate c1.endDate st).2).2
        out1 := some (phaseA c1.env c1.user c1.itemId c1.item c1.startDate
          c1.endDate st)
        res1 := some (submitBookingRequest c1.env c1.user c1.itemId c1.item
          c1.startDate c1.endDate st).1
        out2 := some (phaseA c2.env c2.user c2.itemId c2.item c2.startDate
          c2.endDate
          (submitBookingRequest c1.env c1.user c1.itemId c1.item
            c1.startDate c1.endDate st).2)
        res2 := some (submitBookingRequest c2.env c2.user c2.itemId c2.item
          c2.startDate c2.endDate
          (submitBookingRequest c1.env c1.user c1.itemId c1.item
            c1.startDate c1.endDate st).2).1 } := rfl

/-- C1 counterexample: under the interleaving check₁, check₂, write₁,
write₂ (schedule a1 a2 b1 b2) of two submits for the same item and the
same day from an empty store, both calls pass the conflict check against
the empty snapshot and both commits succeed: both submits create pending
Bookings claiming the same lock key — the check-then-act race. -/
theorem submit_interleaved_double_success :
    resultCreated (runSchedule
      ⟨⟨0, 5, 6, "B1", true⟩, ⟨"alice", none, "a@x.edu"⟩, "item1",
        ⟨"Drill", "owner1", "Owner", "o@x.edu", none⟩, 0, 0⟩
      ⟨⟨0, 7, 8, "B2", true⟩, ⟨"bob", none, "b@x.edu"⟩, "item1",
        ⟨"Drill", "owner1", "Owner", "o@x.edu", none⟩, 0, 0⟩
      [.a1, .a2, .b1, .b2] ⟨[], []⟩).res1 = true ∧
    resultCreated (runSchedule
      ⟨⟨0, 5, 6, "B1", true⟩, ⟨"alice", none, "a@x.edu"⟩, "item1",
        ⟨"Drill", "owner1", "Owner", "o@x.edu", none⟩, 0, 0⟩
      ⟨⟨0, 7, 8, "B2", true⟩, ⟨"bob", none, "b@x.edu"⟩, "item1",
        ⟨"Drill", "owner1", "Owner", "o@x.edu", none⟩, 0, 0⟩
      [.a1, .a2, .b1, .b2] ⟨[], []⟩).res2 = true ∧
    (findDoc (runSchedule
      ⟨⟨0, 5, 6, "B1", true⟩, ⟨"alice", none, "a@x.edu"⟩, "item1",
        ⟨"Drill", "owner1", "Owner", "o@x.edu", none⟩, 0, 0⟩
      ⟨⟨0, 7, 8, "B2", true⟩, ⟨"bob", none, "b@x.edu"⟩, "item1",
        ⟨"Drill", "owner1", "Owner", "o@x.edu", none⟩, 0, 0⟩
      [.a1, .a2, .b1, .b2] ⟨[], []⟩).store.bookings "B1").map
      Booking.status = some "pending" ∧
    (findDoc (runSchedule
      ⟨⟨0, 5, 6, "B1", true⟩, ⟨"alice", none, "a@x.edu"⟩, "item1",
        ⟨"Drill", "owner1", "Owner", "o@x.edu", none⟩, 0, 0⟩
      ⟨⟨0, 7, 8, "B2", true⟩, ⟨"bob", none, "b@x.edu"⟩, "item1",
        ⟨"Drill", "owner1", "Owner", "o@x.edu", none⟩, 0, 0⟩
      [.a1, .a2, .b1, .b2] ⟨[], []⟩).store.bookings "B2").map
      Booking.status = some "pending" ∧
    (findDoc (runSchedule
      ⟨⟨0, 5, 6, "B1", true⟩, ⟨"alice", none, "a@x.edu"⟩, "item1",
        ⟨"Drill", "owner1", "Owner", "o@x.edu", none⟩, 0, 0⟩
      ⟨⟨0, 7, 8, "B2", true⟩, ⟨"bob", none, "b@x.edu"⟩, "item1",
        ⟨"Drill", "owner1", "Owner", "o@x.edu", none⟩, 0, 0⟩
      [.a1, .a2, .b1, .b2] ⟨[], []⟩).store.bookings "B1").map
      Booking.lockIds = some ["item1_1970-01-01"] ∧
    (findDoc (runSchedule
      ⟨⟨0, 5, 6, "B1", true⟩, ⟨"alice", none, "a@x.edu"⟩, "item1",
        ⟨"Drill", "owner1", "Owner", "o@x.edu", none⟩, 0, 0⟩
      ⟨⟨0, 7, 8, "B2", true⟩, ⟨"bob", none, "b@x.edu"⟩, "item1",
        ⟨"Drill", "owner1", "Owner", "o@x.edu", none⟩, 0, 0⟩
      [.a1, .a2, .b1, .b2] ⟨[], []⟩).store.bookings "B2").map
      Booking.lockIds = some ["item1_1970-01-01"] := by decide

/-- C1 (amended): only under serial execution does the mutual-exclusion
property hold: when the two submits for the same item with overlapping
ranges run serially (the first call's check and write both complete before
the second call's check), at most one of the two succeeds in creating a
Booking with its Lock records; the interleaved schedule check₁ check₂
write₁ write₂ violates the property (see the counterexample), because the
conflict check of one call and the write of the other are not isolated. -/
theorem submit_serial_mutual_exclusion (c1 c2 : CallInputs) (st : Store)
    (d : Nat) (hitem : c1.itemId = c2.itemId)
    (h1s : c1.startDate ≤ d) (h1e : d ≤ c1.endDate)
    (h2s : c2.startDate ≤ d) (h2e : d ≤ c2.endDate) :
    ¬ (resultCreated
        (runSchedule c1 c2 [.a1, .b1, .a2, .b2] st).res1 = true ∧
       resultCreated
        (runSchedule c1 c2 [.a1, .b1, .a2, .b2] st).res2 = true) := by
  rw [runSchedule_serial_eq]
  rintro ⟨hr1, hr2⟩
  dsimp only at hr1 hr2
  rcases hres1 : (submitBookingRequest c1.env c1.user c1.itemId c1.item
      c1.startDate c1.endDate st).1 with m | _ | ⟨bid, b⟩
  · rw [hres1] at hr1
    cases hr1
  · rw [hres1] at hr1
    cases hr1
  · obtain ⟨-, -, -, hst1⟩ := submit_created_inv hres1
    rcases hres2 : (submitBookingRequest c2.env c2.user c2.itemId c2.item
        c2.startDate c2.endDate
        (submitBookingRequest c1.env c1.user c1.itemId c1.item c1.startDate
          c1.endDate st).2).1 with m | _ | ⟨bid2, b2⟩
    · rw [hres2] at hr2
      cases hr2
    · rw [hres2] at hr2
      cases hr2
    · have hex : docExists (submitBookingRequest c1.env c1.user c1.itemId
          c1.item c1.startDate c1.endDate st).2.bookingLocks
          (lockKey c2.itemId d) = true := by
        rw [hst1]
        show docExists (writeLocks st.bookingLocks
          (mkLock c1.env c1.itemId c1.item)
          (buildLockIds c1.itemId c1.startDate c1.endDate)) _ = true
        refine docExists_writeLocks_of_mem _ ?_
        rw [← hitem]
        exact mem_buildLockIds c1.itemId h1s h1e
      obtain ⟨l2, hA2⟩ := submit_created_phaseA hres2
      exact phaseA_no_proceed_of_conflict
        (mem_buildLockIds c2.itemId h2s h2e) hex l2 hA2

/-- Witness for C1 (amended): the serial schedule on the same concrete
two-call scenario as the counterexample: the first submit is created, the
second is not. -/
theorem submit_serial_mutual_exclusion_witness :
    (0 : Nat) ≤ 0 ∧
    resultCreated (runSchedule
      ⟨⟨0, 5, 6, "B1", true⟩, ⟨"alice", none, "a@x.edu"⟩, "item1",
        ⟨"Drill", "owner1", "Owner", "o@x.edu", none⟩, 0, 0⟩
      ⟨⟨0, 7, 8, "B2", true⟩, ⟨"bob", none, "b@x.edu"⟩, "item1",
        ⟨"Drill", "owner1", "Owner", "o@x.edu", none⟩, 0, 0⟩
      [.a1, .b1, .a2, .b2] ⟨[], []⟩).res1 = true ∧
    ¬ (resultCreated (runSchedule
        ⟨⟨0, 5, 6, "B1", true⟩, ⟨"alice", none, "a@x.edu"⟩, "item1",
          ⟨"Drill", "owner1", "Owner", "o@x.edu", none⟩, 0, 0⟩
        ⟨⟨0, 7, 8, "B2", true⟩, ⟨"bob", none, "b@x.edu"⟩, "item1",
          ⟨"Drill", "owner1", "Owner", "o@x.edu", none⟩, 0, 0⟩
        [.a1, .b1, .a2, .b2] ⟨[], []⟩).res1 = true ∧
       resultCreated (runSchedule
        ⟨⟨0, 5, 6, "B1", true⟩, ⟨"alice", none, "a@x.edu"⟩, "item1",
          ⟨"Drill", "owner1", "Owner", "o@x.edu", none⟩, 0, 0⟩
        ⟨⟨0, 7, 8, "B2", true⟩, ⟨"bob", none, "b@x.edu"⟩, "item1",
          ⟨"Drill", "owner1", "Owner", "o@x.edu", none⟩, 0, 0⟩
        [.a1, .b1, .a2, .b2] ⟨[], []⟩).res2 = true) :=
  ⟨by decide, by decide,
   submit_serial_mutual_exclusion
    ⟨⟨0, 5, 6, "B1", true⟩, ⟨"alice", none, "a@x.edu"⟩, "item1",
      ⟨"Drill", "owner1", "Owner", "o@x.edu", none⟩, 0, 0⟩
    ⟨⟨0, 7, 8, "B2", true⟩, ⟨"bob", none, "b@x.edu"⟩, "item1",
      ⟨"Drill", "owner1", "Owner", "o@x.edu", none⟩, 0, 0⟩
    ⟨[], []⟩ 0 rfl (by decide) (by decide) (by decide) (by decide)⟩
